import Mathlib

/-!
Verification of the server-side websocket connection core of the userbase
repository (the `Connection` / `Connections` module).  The definitions below
are a shallow embedding of that module: JavaScript numbers holding sequence
numbers are modelled as `Int` (the code uses `-1` as a sentinel), byte sizes
as `Nat`, DynamoDB items as a record type, the paginated range query as a
list of pages, and the mutable `DatabaseState` as explicit state passing.
The opaque external estimator `estimateSizeOfDdbItem` is modelled as a field
`size` carried by each stored item.
-/

deriving instance DecidableEq for Except

namespace Userbase

/-- Tuning constant of the core: ten seconds, in milliseconds
(`SECONDS_BEFORE_ROLLBACK_GAP_TRIGGERED = 1000 * 10`). -/
def SECONDS_BEFORE_ROLLBACK_GAP_TRIGGERED : Int := 1000 * 10

/-- Tuning constant of the core: fifty kibibytes
(`TRANSACTION_SIZE_BUNDLE_TRIGGER = 1024 * 50`). -/
def TRANSACTION_SIZE_BUNDLE_TRIGGER : Nat := 1024 * 50

/-- A stored transaction record, as kept in the transactions table keyed by
`(database-id, sequence-no)`.  `creationDate` is the `creation-date`
timestamp in milliseconds; `size` is the value of the opaque external
estimator `estimateSizeOfDdbItem` on this item. -/
structure Tx where
  dbId : String
  seqNo : Int
  command : String
  key : Option String := none
  record : Option String := none
  operations : Option String := none
  creationDate : Int := 0
  size : Nat := 0
deriving DecidableEq

/-- The per-connection, per-database state
(`{ bundleSeqNo, lastSeqNo, transactionLogSize, init }`). -/
structure DatabaseState where
  bundleSeqNo : Int
  lastSeqNo : Int
  transactionLogSize : Nat
  init : Bool
deriving DecidableEq

/-- `Connection.openDatabase`: creates the `DatabaseState`.
`bundleSeqNo > 0 ? bundleSeqNo : -1`; `lastSeqNo = reopenAtSeqNo || 0`;
`init = reopenAtSeqNo !== undefined`. -/
def openDatabase (bundleSeqNo : Int) (reopenAtSeqNo : Option Int) : DatabaseState :=
  { bundleSeqNo := if 0 < bundleSeqNo then bundleSeqNo else -1
    lastSeqNo := reopenAtSeqNo.getD 0
    transactionLogSize := 0
    init := reopenAtSeqNo.isSome }

/-- The `ApplyTransactions` payload object built by `push` (its
`transactionLog` field lives on the emitted message, below).  `bundleSeqNo`
and `bundle` are `none` when the corresponding properties are absent
(JavaScript `undefined`). -/
structure Payload where
  dbId : String
  dbNameHash : Option String := none
  dbKey : Option String := none
  bundleSeqNo : Option Int := none
  bundle : Option String := none
deriving DecidableEq

/-- The wire shape of one transaction inside `transactionLog`:
`{seqNo, command, key, record, operations, dbId}`. -/
structure WireTx where
  seqNo : Int
  command : String
  key : Option String := none
  record : Option String := none
  operations : Option String := none
  dbId : String
deriving DecidableEq

/-- The projection of a stored item to the wire shape, performed by the
`map` inside `sendPayload`. -/
def toWire (t : Tx) : WireTx :=
  { seqNo := t.seqNo, command := t.command, key := t.key, record := t.record
    operations := t.operations, dbId := t.dbId }

/-- One `ApplyTransactions` message written to the socket:
`{ ...payload, transactionLog, buildBundle? }`.  An absent `buildBundle`
property is modelled as `buildBundle = false`. -/
structure Msg where
  payload : Payload
  transactionLog : List WireTx
  buildBundle : Bool
deriving DecidableEq

/-- The trimmed buffer of `sendPayload`: `findIndex` of the first
transaction with `seqNo > database.lastSeqNo` followed by `slice` from that
index is the same list as `dropWhile` of the negated test, and
`findIndex === -1` exactly when that `dropWhile` result is empty. -/
def survivors (ddbTransactionLog : List Tx) (database : DatabaseState) : List Tx :=
  ddbTransactionLog.dropWhile (fun t => !(decide (database.lastSeqNo < t.seqNo)))

/-- The contiguity gate of `sendPayload`
(`transactionLog[0].seqNo !== database.lastSeqNo + 1 &&
transactionLog[0].seqNo !== payload.bundleSeqNo + 1`): returns `true` when
the payload must be rejected.  When `payload.bundleSeqNo` is absent,
`undefined + 1` is `NaN` in JavaScript and `seqNo !== NaN` always holds, so
the second conjunct is `true`. -/
def seqNoGateFails (bundleSeqNo : Option Int) (lastSeqNo seqNo : Int) : Bool :=
  (seqNo != lastSeqNo + 1) &&
    (match bundleSeqNo with
     | some b => seqNo != b + 1
     | none => true)

/-- Byte size accumulated by `sendPayload` over the transactions it sends
(the estimator summed over the trimmed buffer). -/
def sentSize (ddbTransactionLog : List Tx) (database : DatabaseState) : Nat :=
  ((survivors ddbTransactionLog database).map Tx.size).sum

/-- The tail of `sendPayload` once the trimmed buffer is known to be
`first :: rest`: projection to wire shape with size accumulation, the
contiguity gate, the bundling trigger, and the state update. -/
def sendPayloadCons (payload : Payload) (first : Tx) (rest : List Tx)
    (database : DatabaseState) : Option Msg × DatabaseState :=
  let transactionLog := (first :: rest).map toWire
  let size := ((first :: rest).map Tx.size).sum
  if seqNoGateFails payload.bundleSeqNo database.lastSeqNo first.seqNo then
    (none, database)
  else
    -- the last entry of `transactionLog`, whose seqNo becomes the new
    -- database.lastSeqNo
    let lastSent := (rest.getLastD first).seqNo
    if TRANSACTION_SIZE_BUNDLE_TRIGGER ≤ database.transactionLogSize + size then
      (some { payload := payload, transactionLog := transactionLog, buildBundle := true },
       { database with transactionLogSize := 0, lastSeqNo := lastSent, init := true })
    else
      (some { payload := payload, transactionLog := transactionLog, buildBundle := false },
       { database with transactionLogSize := database.transactionLogSize + size,
                       lastSeqNo := lastSent, init := true })

/-- `Connection.sendPayload(payload, ddbTransactionLog, database)`.
Returns the message written to the socket (`none` when nothing is sent) and
the updated `DatabaseState`. -/
def sendPayload (payload : Payload) (ddbTransactionLog : List Tx)
    (database : DatabaseState) : Option Msg × DatabaseState :=
  match survivors ddbTransactionLog database with
  | [] =>
    -- covers both `indexOfFirstTransactionToSend === -1` and the
    -- (unreachable after it) `transactionLog.length === 0` early return
    (none, database)
  | first :: rest => sendPayloadCons payload first rest database

/-! ### Rollback writer -/

/-- The `Rollback` sentinel item written for a missing slot
(`{database-id, sequence-no: i, command: 'Rollback', creation-date: now}`). -/
def mkRollbackItem (dbId : String) (i : Int) (now : Int) : Tx :=
  { dbId := dbId, seqNo := i, command := "Rollback", creationDate := now }

/-- The DynamoDB condition `attribute_not_exists` on the primary key
`(database-id, sequence-no)`: the conditional put fails exactly when an item
already sits at that key. -/
def slotTaken (store : List Tx) (dbId : String) (i : Int) : Bool :=
  store.any (fun t => decide (t.dbId = dbId ∧ t.seqNo = i))

/-- The increasing enumeration of the rollback window: every integer `i`
with `lastSeqNo + 1 ≤ i ≤ thisSeqNo - 1`, in the order the `for` loop of
`Connection.rollback` visits them. -/
def rollbackIdxs (lastSeqNo thisSeqNo : Int) : List Int :=
  (List.range (thisSeqNo - lastSeqNo - 1).toNat).map
    (fun k : Nat => lastSeqNo + 1 + (k : Int))

/-- The body of `Connection.rollback`: issue one conditional put per slot,
in order.  The first component is the store after all puts performed so far
(writes done before a failure persist); the second is the returned list of
sentinels, or the propagated conditional-put error. -/
def rollbackGo (dbId : String) (now : Int) :
    List Int → List Tx → List Tx × Except Unit (List Tx)
  | [], store => (store, Except.ok [])
  | i :: rest, store =>
    if slotTaken store dbId i then
      (store, Except.error ())
    else
      let item := mkRollbackItem dbId i now
      let res := rollbackGo dbId now rest (store ++ [item])
      (res.1, res.2.map (fun l => item :: l))

/-- `Connection.rollback(lastSeqNo, thisSeqNo, databaseId)`. -/
def rollback (lastSeqNo thisSeqNo : Int) (dbId : String) (now : Int)
    (store : List Tx) : List Tx × Except Unit (List Tx) :=
  rollbackGo dbId now (rollbackIdxs lastSeqNo thisSeqNo) store

/-! ### The range scan of `push` -/

/-- The mutable locals of the scan loop in `push`: the read cursor (the
local variable `lastSeqNo`), the `gapInSeqNo` flag, the output buffer
`ddbTransactionLog`, the transactions table (mutated by rollback puts), and
a flag recording that a store error was thrown. -/
structure ScanSt where
  cursor : Int
  gapInSeqNo : Bool
  buffer : List Tx
  store : List Tx
  failed : Bool
deriving DecidableEq

/-- The inner `for` loop of `push` over one page of query results.
`dbLast` is `database.lastSeqNo`, the delivered watermark consulted by the
two `> database.lastSeqNo` guards.  The loop guard is
`i < Items.length && !gapInSeqNo`; a thrown conditional-put error
(`failed`) aborts everything. -/
def scanItems (dbId : String) (now dbLast : Int) : List Tx → ScanSt → ScanSt
  | [], st => st
  | t :: rest, st =>
    if st.failed || st.gapInSeqNo then st
    else
      let gap := decide (st.cursor + 1 < t.seqNo)
      if gap && decide (SECONDS_BEFORE_ROLLBACK_GAP_TRIGGERED < now - t.creationDate) then
        match rollback st.cursor t.seqNo dbId now st.store with
        | (store2, Except.error _) =>
          -- the put error propagates out of both loops to the catch
          { st with store := store2, failed := true }
        | (store2, Except.ok rolled) =>
          let buf := st.buffer ++ rolled.filter (fun r => decide (dbLast < r.seqNo))
          let buf2 := if decide (dbLast < t.seqNo) then buf ++ [t] else buf
          -- `gapInSeqNo` is still true, so the next guard check exits
          scanItems dbId now dbLast rest
            { cursor := t.seqNo, gapInSeqNo := true, buffer := buf2
              store := store2, failed := false }
      else if gap then
        -- young gap: `continue` past the cursor advance; the guard then exits
        scanItems dbId now dbLast rest { st with gapInSeqNo := true }
      else
        let buf2 := if decide (dbLast < t.seqNo) then st.buffer ++ [t] else st.buffer
        scanItems dbId now dbLast rest { st with cursor := t.seqNo, buffer := buf2 }

/-- The `do … while (params.ExclusiveStartKey && !gapInSeqNo)` pagination:
a non-final page carries a `LastEvaluatedKey`, the final one does not. -/
def scanPages (dbId : String) (now dbLast : Int) : List (List Tx) → ScanSt → ScanSt
  | [], st => st
  | pg :: rest, st =>
    let st2 := scanItems dbId now dbLast pg st
    if st2.failed then st2
    else if rest.isEmpty then st2
    else if st2.gapInSeqNo then st2
    else scanPages dbId now dbLast rest st2

/-! ### `push` -/

/-- `reopeningDatabase = reopenAtSeqNo !== undefined`. -/
def reopening (reopenAtSeqNo : Option Int) : Bool :=
  reopenAtSeqNo.isSome

/-- `openingDatabase = dbNameHash && dbKey && !reopeningDatabase`. -/
def opening (dbNameHash dbKey : Option String) (reopenAtSeqNo : Option Int) : Bool :=
  dbNameHash.isSome && dbKey.isSome && !reopening reopenAtSeqNo

/-- The payload object as assembled by `push` before the scan: the header
fields on an opening call, and the bundle preface when `bundleSeqNo > 0`
and the client is still at `lastSeqNo = 0`.  `bundle` is the blob the
bundle store returned (`none` models an absent blob). -/
def pushPayload (db : DatabaseState) (dbId : String) (dbNameHash dbKey : Option String)
    (reopenAtSeqNo : Option Int) (bundle : Option String) : Payload :=
  let base : Payload := { dbId := dbId }
  let base :=
    if opening dbNameHash dbKey reopenAtSeqNo then
      { base with dbNameHash := dbNameHash, dbKey := dbKey }
    else base
  if 0 < db.bundleSeqNo ∧ db.lastSeqNo = 0 then
    { base with bundleSeqNo := some db.bundleSeqNo, bundle := bundle }
  else base

/-- The read cursor the range query starts from: `bundleSeqNo` when the
bundle preface applies, else `database.lastSeqNo`. -/
def pushCursor (db : DatabaseState) : Int :=
  if 0 < db.bundleSeqNo ∧ db.lastSeqNo = 0 then db.bundleSeqNo else db.lastSeqNo

/-- The scan-loop state at the start of `push`. -/
def initialScanSt (cursor : Int) (store : List Tx) : ScanSt :=
  { cursor := cursor, gapInSeqNo := false, buffer := [], store := store, failed := false }

/-- The post-scan re-check `reopeningDatabase && database.lastSeqNo !== reopenAtSeqNo`. -/
def reopenMismatch (reopenAtSeqNo : Option Int) (lastSeqNo : Int) : Bool :=
  match reopenAtSeqNo with
  | some r => lastSeqNo != r
  | none => false

/-- `database.lastSeqNo = payload.bundleSeqNo`, executed in the
empty-buffer branch only `if (payload.bundle)`.  In every payload `push`
builds, `bundle` is `some` only when `bundleSeqNo` is `some`, so the
fallback row is unreachable from `push`. -/
def bundleAdvance (payload : Payload) (lastSeqNo : Int) : Int :=
  match payload.bundle, payload.bundleSeqNo with
  | some _, some b => b
  | _, _ => lastSeqNo

/-- The observable outcome of one `push` call: the message written to the
socket (if any), the resulting `DatabaseState`, the resulting transactions
table, and whether the call ended by throwing a store error. -/
structure PushOutcome where
  sent : Option Msg
  db : DatabaseState
  store : List Tx
  errored : Bool
deriving DecidableEq

/-- Everything `push` does after the scan: the thrown-error exit, the three
defensive re-checks, the empty-buffer branch, and the delegation to
`sendPayload`. -/
def pushAfterScan (db : DatabaseState) (dbNameHash dbKey : Option String)
    (reopenAtSeqNo : Option Int) (payload : Payload) (st : ScanSt) : PushOutcome :=
  if st.failed then
    { sent := none, db := db, store := st.store, errored := true }
  else if opening dbNameHash dbKey reopenAtSeqNo && (db.lastSeqNo != 0) then
    { sent := none, db := db, store := st.store, errored := false }
  else if reopenMismatch reopenAtSeqNo db.lastSeqNo then
    { sent := none, db := db, store := st.store, errored := false }
  else if !opening dbNameHash dbKey reopenAtSeqNo && !db.init then
    { sent := none, db := db, store := st.store, errored := false }
  else if st.buffer.isEmpty then
    if opening dbNameHash dbKey reopenAtSeqNo || reopening reopenAtSeqNo then
      { sent := some { payload := payload, transactionLog := [], buildBundle := false }
        db := { db with lastSeqNo := bundleAdvance payload db.lastSeqNo, init := true }
        store := st.store, errored := false }
    else
      { sent := none, db := db, store := st.store, errored := false }
  else
    let r := sendPayload payload st.buffer db
    { sent := r.1, db := r.2, store := st.store, errored := false }

/-- `Connection.push(databaseId, dbNameHash, dbKey, reopenAtSeqNo)` on a
database in state `db`, against a transactions table returning the pages
`pages`, a bundle store returning `bundle`, wall clock `now`, and a table
contents `store` for the conditional rollback puts. -/
def push (db : DatabaseState) (dbId : String) (dbNameHash dbKey : Option String)
    (reopenAtSeqNo : Option Int) (bundle : Option String)
    (pages : List (List Tx)) (now : Int) (store : List Tx) : PushOutcome :=
  pushAfterScan db dbNameHash dbKey reopenAtSeqNo
    (pushPayload db dbId dbNameHash dbKey reopenAtSeqNo bundle)
    (scanPages dbId now db.lastSeqNo pages (initialScanSt (pushCursor db) store))

/-! ### Connection registry and seed-exchange mediator

`Connections.sockets : map<userId, map<connectionId, Connection>>` is
flattened to a list of `Conn` values: `register` stores each connection
under the key `(connection.userId, connection.id)`, which coincides with
the connection's own fields, so the nested maps carry no extra data.
`uuidv4` is modelled by a monotone counter minting fresh ids. -/

/-- A live `Connection` as far as the registry and the seed mediator are
concerned. -/
structure Conn where
  userId : String
  clientId : String
  id : Nat
  keyValidated : Bool := false
  requesterPublicKey : Option String := none
deriving DecidableEq

/-- The process-wide registry: `sockets`, the `uniqueClients` set, and the
id counter. -/
structure Registry where
  sockets : List Conn
  uniqueClients : List String
  nextId : Nat
deriving DecidableEq

/-- The registry before any call. -/
def emptyRegistry : Registry :=
  { sockets := [], uniqueClients := [], nextId := 0 }

/-- The close code used on a duplicate `clientId`
(`statusCodes['Client Already Connected']`, identified by its key). -/
def clientAlreadyConnected : String := "Client Already Connected"

/-- What a `register` call did to the socket it was handed: the returned
connection (`none` models `return false`) and the close code if the socket
was closed. -/
structure RegOut where
  result : Option Conn
  closedCode : Option String
deriving DecidableEq

/-- `Connections.register(userId, socket, clientId)`. -/
def register (reg : Registry) (userId clientId : String) : Registry × RegOut :=
  if reg.uniqueClients.contains clientId then
    (reg, { result := none, closedCode := some clientAlreadyConnected })
  else
    let conn : Conn := { userId := userId, clientId := clientId, id := reg.nextId }
    ({ sockets := conn :: reg.sockets
       uniqueClients := clientId :: reg.uniqueClients
       nextId := reg.nextId + 1 },
     { result := some conn, closedCode := none })

/-- `Connections.close(connection)`: delete
`sockets[connection.userId][connection.id]` and
`uniqueClients[connection.clientId]`. -/
def closeConn (reg : Registry) (conn : Conn) : Registry :=
  { reg with
    sockets := reg.sockets.filter
      (fun k => !(k.userId == conn.userId && k.id == conn.id))
    uniqueClients := reg.uniqueClients.filter (fun c => c != conn.clientId) }

/-- Whether `conn` is currently present in the registry. -/
def connLive (reg : Registry) (conn : Conn) : Bool :=
  decide (conn ∈ reg.sockets)

/-- Number of registered connections carrying this `clientId`. -/
def countClient (reg : Registry) (clientId : String) : Nat :=
  (reg.sockets.filter (fun k => k.clientId == clientId)).length

/-- One call against the registry: `register`, or `close` on the
connection returned by the `k`-th successful `register` so far. -/
inductive RegOp where
  | register (userId clientId : String)
  | close (k : Nat)
deriving DecidableEq

/-- Trace-execution state: the registry, every connection ever returned by
`register`, and a flag that stays `true` while every `close` so far was
applied to a connection still present in the registry. -/
structure RunSt where
  reg : Registry
  minted : List Conn
  closesLive : Bool
deriving DecidableEq

/-- The state before any operation. -/
def initialRunSt : RunSt :=
  { reg := emptyRegistry, minted := [], closesLive := true }

/-- Run a sequence of `register` and `close` calls. -/
def runOps : List RegOp → RunSt → RunSt
  | [], s => s
  | RegOp.register u c :: rest, s =>
    let r := register s.reg u c
    runOps rest { s with reg := r.1, minted := s.minted ++ r.2.result.toList }
  | RegOp.close k :: rest, s =>
    match s.minted.get? k with
    | some conn =>
      runOps rest { s with reg := closeConn s.reg conn
                           closesLive := s.closesLive && connLive s.reg conn }
    | none => runOps rest { s with closesLive := false }

/-! ### Seed exchange -/

/-- A seed-exchange message written to a socket. -/
inductive SeedMsg where
  | receiveRequestForSeed (requesterPublicKey : String)
  | receiveSeed (senderPublicKey encryptedSeed : String)
deriving DecidableEq

/-- `Connection.openSeedRequest(requesterPublicKey)`. -/
def openSeedRequest (c : Conn) (requesterPublicKey : String) : Conn :=
  { c with requesterPublicKey := some requesterPublicKey }

/-- `Connection.sendSeedRequest(requesterPublicKey)`: a no-op unless the
connection's key has been validated. -/
def connSendSeedRequest (c : Conn) (requesterPublicKey : String) : Option SeedMsg :=
  if !c.keyValidated then none
  else some (SeedMsg.receiveRequestForSeed requesterPublicKey)

/-- `Connection.sendSeed(senderPublicKey, requesterPublicKey, encryptedSeed)`:
`if (this.requesterPublicKey !== requesterPublicKey) return` — an unset
`requesterPublicKey` (`undefined`) never equals the argument string. -/
def connSendSeed (c : Conn) (senderPublicKey requesterPublicKey encryptedSeed : String) :
    Option SeedMsg :=
  if c.requesterPublicKey ≠ some requesterPublicKey then none
  else some (SeedMsg.receiveSeed senderPublicKey encryptedSeed)

/-- `Object.values(Connections.sockets[userId])`. -/
def userConns (reg : Registry) (userId : String) : List Conn :=
  reg.sockets.filter (fun k => k.userId == userId)

/-- `sockets[userId][connectionId]` lookup. -/
def lookupConn (reg : Registry) (userId : String) (connId : Nat) : Option Conn :=
  reg.sockets.find? (fun k => k.userId == userId && k.id == connId)

/-- In-place mutation of one connection object. -/
def updateConn (reg : Registry) (userId : String) (connId : Nat) (f : Conn → Conn) :
    Registry :=
  { reg with
    sockets := reg.sockets.map
      (fun k => if k.userId == userId && k.id == connId then f k else k) }

/-- `Connections.sendSeedRequest(userId, connectionId, requesterPublicKey)`:
record the key on the origin connection, then invoke every connection's
per-connection broadcaster.  The result pairs each connection (as the loop
sees it, after the mutation) with what it wrote to its socket. -/
def connectionsSendSeedRequest (reg : Registry) (userId : String) (connId : Nat)
    (requesterPublicKey : String) : Registry × List (Conn × Option SeedMsg) :=
  match lookupConn reg userId connId with
  | none => (reg, [])
  | some _ =>
    let reg2 := updateConn reg userId connId (fun c => openSeedRequest c requesterPublicKey)
    (reg2, (userConns reg2 userId).map (fun c => (c, connSendSeedRequest c requesterPublicKey)))

/-- `Connections.sendSeed(userId, senderPublicKey, requesterPublicKey,
encryptedSeed)`: fan out to every connection of the user. -/
def connectionsSendSeed (reg : Registry) (userId : String)
    (senderPublicKey requesterPublicKey encryptedSeed : String) :
    List (Conn × Option SeedMsg) :=
  (userConns reg userId).map
    (fun c => (c, connSendSeed c senderPublicKey requesterPublicKey encryptedSeed))

/-! ### Concrete instances used by witnesses and counterexamples -/

/-- A stored transaction at sequence number 5. -/
def txA : Tx := { dbId := "D", seqNo := 5, command := "Insert", size := 3 }

/-- A stored transaction at sequence number 6. -/
def txB : Tx := { dbId := "D", seqNo := 6, command := "Insert", size := 4 }

/-- A database state whose client has received everything through 4. -/
def dbAt4 : DatabaseState :=
  { bundleSeqNo := -1, lastSeqNo := 4, transactionLogSize := 0, init := true }

/-- The message `sendPayload` emits for `txA` against `dbAt4`. -/
def msgA : Msg :=
  { payload := { dbId := "D" }, transactionLog := [toWire txA], buildBundle := false }

/-- The database state after that emission. -/
def dbA2 : DatabaseState :=
  { bundleSeqNo := -1, lastSeqNo := 5, transactionLogSize := 3, init := true }

/-- A freshly connected, not-yet-validated device. -/
def connN : Conn := { userId := "U", clientId := "N", id := 0 }

/-- A connection that issued a seed request with public key `pkN`. -/
def connReq : Conn :=
  { userId := "U", clientId := "R", id := 1, requesterPublicKey := some "pkN" }

/-- A registry holding only `connReq`. -/
def regSeed : Registry :=
  { sockets := [connReq], uniqueClients := ["R"], nextId := 2 }

/-- An old stored transaction at sequence number 2 (a gap from cursor 0,
past the rollback threshold by time 20000). -/
def cexT2 : Tx := { dbId := "D", seqNo := 2, command := "Insert", creationDate := 0, size := 1 }

/-- A further stored transaction at sequence number 3, on a later page. -/
def cexT3 : Tx := { dbId := "D", seqNo := 3, command := "Insert", creationDate := 0, size := 1 }

/-- An item already occupying slot 1 of database `D`. -/
def blocker1 : Tx := { dbId := "D", seqNo := 1, command := "Insert" }

/-- An item already occupying slot 2 of database `D`. -/
def blocker2 : Tx := { dbId := "D", seqNo := 2, command := "Insert" }

/-- An old stored transaction at sequence number 3. -/
def gapT3 : Tx := { dbId := "D", seqNo := 3, command := "Insert", creationDate := 0, size := 1 }

/-- An initialized database state at the start of the log. -/
def dbInit : DatabaseState :=
  { bundleSeqNo := -1, lastSeqNo := 0, transactionLogSize := 0, init := true }

/-- The trace refuting the unrestricted registry-uniqueness claim:
register `C`, close it, register `C` again, then close the *stale first*
connection a second time. -/
def cexOps : List RegOp :=
  [RegOp.register "U" "C", RegOp.close 0, RegOp.register "U" "C", RegOp.close 0]

/-- The registry well-formedness invariant maintained by `register` and by
`close` on live connections: `uniqueClients` has no duplicates and holds
exactly the clientIds of registered connections, no two registered
connections share a `clientId` or an `id`, and all ids are below the
counter. -/
def RegInv (reg : Registry) : Prop :=
  reg.uniqueClients.Nodup ∧
  (∀ c : String, c ∈ reg.uniqueClients ↔ ∃ k ∈ reg.sockets, k.clientId = c) ∧
  (reg.sockets.map Conn.clientId).Nodup ∧
  (reg.sockets.map Conn.id).Nodup ∧
  (∀ k ∈ reg.sockets, k.id < reg.nextId)

/-! ## Theorems -/

/-- Unfolding lemma: with an empty trimmed buffer, `sendPayload` is a
no-op. -/
theorem sendPayload_eq_nil (payload : Payload) (log : List Tx) (db : DatabaseState)
    (hs : survivors log db = []) : sendPayload payload log db = (none, db) := by
  unfold sendPayload
  rw [hs]

/-- Unfolding lemma: with a nonempty trimmed buffer, `sendPayload` is
`sendPayloadCons`. -/
theorem sendPayload_eq_cons (payload : Payload) (log : List Tx) (db : DatabaseState)
    (first : Tx) (rest : List Tx) (hs : survivors log db = first :: rest) :
    sendPayload payload log db = sendPayloadCons payload first rest db := by
  unfold sendPayload
  rw [hs]

/-- Claim C1: in `sendPayload`, after trimming the buffer to entries with
`seqNo > database.lastSeqNo`, no message is emitted unless the first
surviving entry's `seqNo` equals `database.lastSeqNo + 1` or equals
`payload.bundleSeqNo + 1`; the latter disjunct is satisfiable only when the
payload carries a `bundleSeqNo` (second conjunct: with `bundleSeqNo`
absent, an emission forces the first disjunct).  Whenever the gate fails,
`sendPayload` emits nothing and leaves the state unchanged. -/
theorem sendPayload_contiguity_gate :
    (∀ (payload : Payload) (log : List Tx) (db : DatabaseState) (first : Tx) (rest : List Tx),
      survivors log db = first :: rest →
      first.seqNo ≠ db.lastSeqNo + 1 →
      (∀ b : Int, payload.bundleSeqNo = some b → first.seqNo ≠ b + 1) →
      sendPayload payload log db = (none, db)) ∧
    (∀ (payload : Payload) (log : List Tx) (db : DatabaseState) (m : Msg) (db2 : DatabaseState),
      payload.bundleSeqNo = none →
      sendPayload payload log db = (some m, db2) →
      ∃ first rest, survivors log db = first :: rest ∧ first.seqNo = db.lastSeqNo + 1) := by
  constructor
  · intro payload log db first rest hs h1 h2
    have hg : seqNoGateFails payload.bundleSeqNo db.lastSeqNo first.seqNo = true := by
      cases hb : payload.bundleSeqNo with
      | none => simp [seqNoGateFails, h1]
      | some b => simp [seqNoGateFails, h1, h2 b hb]
    rw [sendPayload_eq_cons payload log db first rest hs]
    simp [sendPayloadCons, hg]
  · intro payload log db m db2 hb h
    cases hs : survivors log db with
    | nil => rw [sendPayload_eq_nil payload log db hs] at h; simp at h
    | cons first rest =>
      rw [sendPayload_eq_cons payload log db first rest hs] at h
      simp only [sendPayloadCons] at h
      by_cases hg : seqNoGateFails payload.bundleSeqNo db.lastSeqNo first.seqNo = true
      · rw [if_pos hg] at h
        simp at h
      · refine ⟨first, rest, rfl, ?_⟩
        simpa [seqNoGateFails, hb] using hg

/-- Witness for C1 at a concrete input: with the client at 4 and the
buffer starting at 6 (no bundle on the payload), the gate fails and
nothing is emitted. -/
theorem sendPayload_contiguity_gate_witness :
    survivors [txB] dbAt4 = [txB] ∧
    sendPayload { dbId := "D" } [txB] dbAt4 = (none, dbAt4) :=
  ⟨by decide,
   sendPayload_contiguity_gate.1 { dbId := "D" } [txB] dbAt4 txB []
     (by decide) (by decide) (fun b hb => Option.noConfusion hb)⟩

/-- Claim C3: on every emission of `sendPayload`, `buildBundle` is set
exactly when `database.transactionLogSize` plus the size of the sent
transactions reaches `TRANSACTION_SIZE_BUNDLE_TRIGGER` (50 KiB), in which
case `transactionLogSize` resets to 0; otherwise the flag is off and
`transactionLogSize` grows by that size. -/
theorem sendPayload_bundle_trigger :
    ∀ (payload : Payload) (log : List Tx) (db : DatabaseState) (m : Msg) (db2 : DatabaseState),
      sendPayload payload log db = (some m, db2) →
      (m.buildBundle = true ↔
        TRANSACTION_SIZE_BUNDLE_TRIGGER ≤ db.transactionLogSize + sentSize log db) ∧
      (m.buildBundle = true → db2.transactionLogSize = 0) ∧
      (m.buildBundle = false →
        db2.transactionLogSize = db.transactionLogSize + sentSize log db) := by
  intro payload log db m db2 h
  cases hs : survivors log db with
  | nil => rw [sendPayload_eq_nil payload log db hs] at h; simp at h
  | cons first rest =>
    rw [sendPayload_eq_cons payload log db first rest hs] at h
    simp only [sendPayloadCons] at h
    have hsz : sentSize log db = ((first :: rest).map Tx.size).sum := by
      rw [sentSize, hs]
    by_cases hg : seqNoGateFails payload.bundleSeqNo db.lastSeqNo first.seqNo = true
    · rw [if_pos hg] at h
      simp at h
    · rw [if_neg hg] at h
      by_cases ht :
          TRANSACTION_SIZE_BUNDLE_TRIGGER ≤
            db.transactionLogSize + ((first :: rest).map Tx.size).sum
      · rw [if_pos ht] at h
        injection h with hm2 hdb2
        injection hm2 with hm2
        subst hm2
        subst hdb2
        refine ⟨by simpa [hsz] using ht, fun _ => rfl, fun hf => by simp at hf⟩
      · rw [if_neg ht] at h
        injection h with hm2 hdb2
        injection hm2 with hm2
        subst hm2
        subst hdb2
        refine ⟨?_, fun hf => by simp at hf, fun _ => by rw [hsz]⟩
        rw [hsz]
        simp only [show (false = true) = False from by simp]
        exact ⟨fun hf => hf.elim, fun hc => absurd hc ht⟩

/-- Once `gapInSeqNo` is set, the item loop's guard exits at once: the
remaining items of the page are not processed. -/
theorem scanItems_gap_true (dbId : String) (now dbLast : Int) (l : List Tx) (st : ScanSt)
    (h : st.gapInSeqNo = true) : scanItems dbId now dbLast l st = st := by
  cases l with
  | nil => rfl
  | cons t rest => unfold scanItems; rw [h]; simp

/-- Counterexample to claim C2.  With cursor 0 and the query returning
item 2 on one page and item 3 on a second page, item 2 opens a gap that is
past the 10-second threshold; the rollback succeeds (the sentinel at 1 is
written to the store and no error is thrown), yet the scan stops: the
buffer holds only seqNos 1 and 2, the second page is never consumed, and
`gapInSeqNo` is left `true`.  The claim says a gap resolved by rollback
does not terminate the scan, so item 3 should have been buffered. -/
theorem scan_resolved_gap_cex :
    (scanPages "D" 20000 0 [[cexT2], [cexT3]] (initialScanSt 0 [])).failed = false ∧
    (scanPages "D" 20000 0 [[cexT2], [cexT3]] (initialScanSt 0 [])).store.map Tx.seqNo = [1] ∧
    (scanPages "D" 20000 0 [[cexT2], [cexT3]] (initialScanSt 0 [])).buffer.map Tx.seqNo = [1, 2] ∧
    cexT3 ∉ (scanPages "D" 20000 0 [[cexT2], [cexT3]] (initialScanSt 0 [])).buffer ∧
    (scanPages "D" 20000 0 [[cexT2], [cexT3]] (initialScanSt 0 [])).gapInSeqNo = true := by
  decide

/-- Claim C2, amended: when a gap older than the rollback threshold is
rolled back successfully, the scan does proceed to process the gap-ending
item `t` (the cursor advances to `t.seqNo`, the surviving sentinels and
`t` are buffered), but `gapInSeqNo` remains set, so the scan stops right
after `t`: the remaining items of the page and all later pages are ignored
whether or not the rollback resolved the gap.  Pagination continues only
while no gap has been observed at all. -/
theorem scan_processes_gap_item_then_stops :
    ∀ (dbId : String) (now dbLast : Int) (t : Tx) (restItems : List Tx)
      (restPages : List (List Tx)) (st : ScanSt) (store2 rolled : List Tx),
      st.failed = false → st.gapInSeqNo = false →
      st.cursor + 1 < t.seqNo →
      SECONDS_BEFORE_ROLLBACK_GAP_TRIGGERED < now - t.creationDate →
      rollback st.cursor t.seqNo dbId now st.store = (store2, Except.ok rolled) →
      scanPages dbId now dbLast ((t :: restItems) :: restPages) st =
        { cursor := t.seqNo, gapInSeqNo := true
          buffer :=
            if decide (dbLast < t.seqNo) then
              (st.buffer ++ rolled.filter (fun r => decide (dbLast < r.seqNo))) ++ [t]
            else st.buffer ++ rolled.filter (fun r => decide (dbLast < r.seqNo))
          store := store2, failed := false } := by
  intro dbId now dbLast t restItems restPages st store2 rolled hf hg hgap hage hrb
  have hitems : scanItems dbId now dbLast (t :: restItems) st =
      { cursor := t.seqNo, gapInSeqNo := true
        buffer :=
          if decide (dbLast < t.seqNo) then
            (st.buffer ++ rolled.filter (fun r => decide (dbLast < r.seqNo))) ++ [t]
          else st.buffer ++ rolled.filter (fun r => decide (dbLast < r.seqNo))
        store := store2, failed := false } := by
    unfold scanItems
    rw [hf, hg]
    simp only [Bool.or_self, Bool.false_eq_true, if_false]
    rw [hrb]
    simp [hgap, hage]
    exact scanItems_gap_true dbId now dbLast restItems _ rfl
  cases restPages with
  | nil => unfold scanPages; rw [hitems]; simp
  | cons p ps => unfold scanPages; rw [hitems]; simp

/-- Witness for the amended C2 at the counterexample input: the scan of
pages `[[cexT2], [cexT3]]` from cursor 0 halts right after processing
`cexT2`, with the sentinel at 1 and `cexT2` buffered. -/
theorem scan_processes_gap_item_then_stops_witness :
    scanPages "D" 20000 0 [[cexT2], [cexT3]] (initialScanSt 0 []) =
      { cursor := 2, gapInSeqNo := true
        buffer := [mkRollbackItem "D" 1 20000, cexT2]
        store := [mkRollbackItem "D" 1 20000], failed := false } :=
  (scan_processes_gap_item_then_stops "D" 20000 0 cexT2 [] [[cexT3]]
      (initialScanSt 0 []) [mkRollbackItem "D" 1 20000] [mkRollbackItem "D" 1 20000]
      rfl rfl (by decide) (by decide) (by decide)).trans (by decide)

/-- Witness for C3 at a concrete input: sending `txA` (3 bytes) to
`dbAt4` stays under the threshold, leaves `buildBundle` off, and advances
`transactionLogSize` by 3. -/
theorem sendPayload_bundle_trigger_witness :
    sendPayload { dbId := "D" } [txA] dbAt4 = (some msgA, dbA2) ∧
    (msgA.buildBundle = true ↔
      TRANSACTION_SIZE_BUNDLE_TRIGGER ≤ dbAt4.transactionLogSize + sentSize [txA] dbAt4) ∧
    (msgA.buildBundle = true → dbA2.transactionLogSize = 0) ∧
    (msgA.buildBundle = false →
      dbA2.transactionLogSize = dbAt4.transactionLogSize + sentSize [txA] dbAt4) :=
  ⟨by decide, sendPayload_bundle_trigger { dbId := "D" } [txA] dbAt4 msgA dbA2 (by decide)⟩

/-- Claim C4: when the scanned transaction buffer is empty and the call is
an opening or a reopening (and the post-scan re-checks pass), `push` still
sends the payload with an empty `transactionLog`; if a bundle was attached
to the payload, `lastSeqNo` becomes the bundle's `bundleSeqNo`
(`bundleAdvance`); `init` becomes `true`.  When the buffer is empty and
the call is neither an opening nor a reopening, no message is sent and the
`DatabaseState` is unchanged. -/
theorem push_empty_buffer :
    (∀ (db : DatabaseState) (dbId : String) (dbNameHash dbKey : Option String)
       (reopenAtSeqNo : Option Int) (bundle : Option String)
       (pages : List (List Tx)) (now : Int) (store : List Tx),
      (scanPages dbId now db.lastSeqNo pages (initialScanSt (pushCursor db) store)).failed
        = false →
      (scanPages dbId now db.lastSeqNo pages (initialScanSt (pushCursor db) store)).buffer
        = [] →
      (opening dbNameHash dbKey reopenAtSeqNo || reopening reopenAtSeqNo) = true →
      (opening dbNameHash dbKey reopenAtSeqNo && (db.lastSeqNo != 0)) = false →
      reopenMismatch reopenAtSeqNo db.lastSeqNo = false →
      (!opening dbNameHash dbKey reopenAtSeqNo && !db.init) = false →
      push db dbId dbNameHash dbKey reopenAtSeqNo bundle pages now store =
        { sent := some
            { payload := pushPayload db dbId dbNameHash dbKey reopenAtSeqNo bundle
              transactionLog := [], buildBundle := false }
          db := { db with
                  lastSeqNo := bundleAdvance
                    (pushPayload db dbId dbNameHash dbKey reopenAtSeqNo bundle) db.lastSeqNo
                  init := true }
          store := (scanPages dbId now db.lastSeqNo pages
                     (initialScanSt (pushCursor db) store)).store
          errored := false }) ∧
    (∀ (db : DatabaseState) (dbId : String) (dbNameHash dbKey : Option String)
       (reopenAtSeqNo : Option Int) (bundle : Option String)
       (pages : List (List Tx)) (now : Int) (store : List Tx),
      (scanPages dbId now db.lastSeqNo pages (initialScanSt (pushCursor db) store)).failed
        = false →
      (scanPages dbId now db.lastSeqNo pages (initialScanSt (pushCursor db) store)).buffer
        = [] →
      opening dbNameHash dbKey reopenAtSeqNo = false →
      reopening reopenAtSeqNo = false →
      (push db dbId dbNameHash dbKey reopenAtSeqNo bundle pages now store).sent = none ∧
      (push db dbId dbNameHash dbKey reopenAtSeqNo bundle pages now store).db = db) := by
  constructor
  · intro db dbId dbNameHash dbKey reopenAtSeqNo bundle pages now store hfail hbuf hor h1 h2 h3
    unfold push pushAfterScan
    rw [hfail, hbuf, h1, h2, h3, hor]
    simp
  · intro db dbId dbNameHash dbKey reopenAtSeqNo bundle pages now store hfail hbuf hop hre
    have hnone : reopenAtSeqNo = none := by
      cases reopenAtSeqNo with
      | none => rfl
      | some r => simp [reopening] at hre
    unfold push pushAfterScan
    rw [hfail, hbuf, hop, hre, hnone]
    cases hinit : db.init with
    | false => simp [reopenMismatch]
    | true => simp [reopenMismatch]

/-- Witness for C4 at scenario S1: a first-time open with no bundle and an
empty log sends a header-only message and marks `init`. -/
theorem push_empty_buffer_witness :
    push (openDatabase (-1) none) "D" (some "h") (some "k") none none [] 0 [] =
      { sent := some
          { payload := { dbId := "D", dbNameHash := some "h", dbKey := some "k" }
            transactionLog := [], buildBundle := false }
        db := { bundleSeqNo := -1, lastSeqNo := 0, transactionLogSize := 0, init := true }
        store := [], errored := false } :=
  (push_empty_buffer.1 (openDatabase (-1) none) "D" (some "h") (some "k") none none [] 0 []
    rfl rfl (by decide) (by decide) rfl (by decide)).trans (by decide)

/-- Claim C5: `register` with a `clientId` already in `uniqueClients`
closes the socket with code `Client Already Connected`, returns the
rejection value, and changes nothing (in particular neither `sockets` nor
`uniqueClients` gains an entry); otherwise it marks the `clientId`
present, mints a fresh `connectionId` (the current counter value), and
inserts the new connection into `sockets`. -/
theorem register_spec :
    (∀ (reg : Registry) (userId clientId : String),
      reg.uniqueClients.contains clientId = true →
      register reg userId clientId =
        (reg, { result := none, closedCode := some clientAlreadyConnected })) ∧
    (∀ (reg : Registry) (userId clientId : String),
      reg.uniqueClients.contains clientId = false →
      ∃ conn : Conn,
        register reg userId clientId =
          ({ sockets := conn :: reg.sockets
             uniqueClients := clientId :: reg.uniqueClients
             nextId := reg.nextId + 1 },
           { result := some conn, closedCode := none }) ∧
        conn.userId = userId ∧ conn.clientId = clientId ∧ conn.id = reg.nextId ∧
        conn.keyValidated = false ∧ conn.requesterPublicKey = none) := by
  constructor
  · intro reg userId clientId h
    unfold register
    rw [h]
    simp
  · intro reg userId clientId h
    refine ⟨{ userId := userId, clientId := clientId, id := reg.nextId }, ?_,
      rfl, rfl, rfl, rfl, rfl⟩
    unfold register
    rw [h]
    simp

/-- Witness for C5: registering clientId `C` twice; the second call is
rejected with the dedicated close code and leaves the registry as it was. -/
theorem register_spec_witness :
    ((register emptyRegistry "U" "C").1.uniqueClients.contains "C" = true) ∧
    register (register emptyRegistry "U" "C").1 "U" "C" =
      ((register emptyRegistry "U" "C").1,
       { result := none, closedCode := some clientAlreadyConnected }) :=
  ⟨by decide, register_spec.1 (register emptyRegistry "U" "C").1 "U" "C" (by decide)⟩

/-- Claim C7: a connection whose `keyValidated` flag is `false` never has
a `ReceiveRequestForSeed` message written to its socket: the
per-connection broadcaster is a no-op on it, and every emission of the
user-scoped broadcast (which reaches connections only through that
broadcaster) comes from a connection with `keyValidated = true`. -/
theorem sendSeedRequest_requires_keyValidated :
    (∀ (c : Conn) (requesterPublicKey : String),
      c.keyValidated = false → connSendSeedRequest c requesterPublicKey = none) ∧
    (∀ (reg : Registry) (userId : String) (connId : Nat) (requesterPublicKey : String)
       (c : Conn) (m : SeedMsg),
      (c, some m) ∈ (connectionsSendSeedRequest reg userId connId requesterPublicKey).2 →
      c.keyValidated = true) := by
  constructor
  · intro c requesterPublicKey h
    unfold connSendSeedRequest
    rw [h]
    simp
  · intro reg userId connId requesterPublicKey c m hmem
    unfold connectionsSendSeedRequest at hmem
    cases hl : lookupConn reg userId connId with
    | none => rw [hl] at hmem; simp at hmem
    | some c0 =>
      rw [hl] at hmem
      simp only [List.mem_map] at hmem
      obtain ⟨c2, _, heq⟩ := hmem
      simp only [Prod.mk.injEq] at heq
      obtain ⟨rfl, ho⟩ := heq
      cases hkv : c2.keyValidated with
      | true => rfl
      | false =>
        unfold connSendSeedRequest at ho
        rw [hkv] at ho
        simp at ho

/-- Witness for C7: a not-yet-validated connection's broadcaster sends
nothing. -/
theorem sendSeedRequest_requires_keyValidated_witness :
    connN.keyValidated = false ∧ connSendSeedRequest connN "pk" = none :=
  ⟨rfl, sendSeedRequest_requires_keyValidated.1 connN "pk" rfl⟩

/-- Claim C8: under `Connections.sendSeed`, a connection of the user
emits `{route: ReceiveSeed, senderPublicKey, encryptedSeed}` exactly when
its own stored `requesterPublicKey` equals the message's
`requesterPublicKey`; every other connection of the user emits nothing. -/
theorem sendSeed_requester_only :
    ∀ (reg : Registry) (userId senderPublicKey requesterPublicKey encryptedSeed : String)
      (c : Conn) (o : Option SeedMsg),
      (c, o) ∈ connectionsSendSeed reg userId senderPublicKey requesterPublicKey encryptedSeed →
      (o = some (SeedMsg.receiveSeed senderPublicKey encryptedSeed) ↔
        c.requesterPublicKey = some requesterPublicKey) ∧
      (c.requesterPublicKey ≠ some requesterPublicKey → o = none) := by
  intro reg userId senderPublicKey requesterPublicKey encryptedSeed c o hmem
  unfold connectionsSendSeed at hmem
  simp only [List.mem_map] at hmem
  obtain ⟨c2, _, heq⟩ := hmem
  simp only [Prod.mk.injEq] at heq
  obtain ⟨rfl, ho⟩ := heq
  subst ho
  constructor
  · by_cases hr : c2.requesterPublicKey = some requesterPublicKey
    · simp [connSendSeed, hr]
    · simp [connSendSeed, hr]
  · intro hr
    simp [connSendSeed, hr]

/-- Witness for C8: in a one-connection registry whose connection stores
`requesterPublicKey = "pkN"`, `sendSeed` for requester `"pkN"` delivers
the seed message to it. -/
theorem sendSeed_requester_only_witness :
    (connReq, some (SeedMsg.receiveSeed "pkA" "enc")) ∈
      connectionsSendSeed regSeed "U" "pkA" "pkN" "enc" ∧
    (some (SeedMsg.receiveSeed "pkA" "enc") =
        some (SeedMsg.receiveSeed "pkA" "enc") ↔
      connReq.requesterPublicKey = some "pkN") :=
  ⟨by decide,
   (sendSeed_requester_only regSeed "U" "pkA" "pkN" "enc" connReq
     (some (SeedMsg.receiveSeed "pkA" "enc")) (by decide)).1⟩

/-- Every element of the trimmed buffer is an element of the input
buffer. -/
theorem mem_of_mem_survivors (log : List Tx) (db : DatabaseState) :
    ∀ t ∈ survivors log db, t ∈ log :=
  fun _ ht => (List.dropWhile_sublist _).subset ht

/-- Both appends into `ddbTransactionLog` inside the scan are guarded by a
`> database.lastSeqNo` check, so every buffered item is above the
watermark. -/
theorem scanItems_buffer_gt (dbId : String) (now dbLast : Int) :
    ∀ (l : List Tx) (st : ScanSt),
      (∀ t ∈ st.buffer, dbLast < t.seqNo) →
      ∀ t ∈ (scanItems dbId now dbLast l st).buffer, dbLast < t.seqNo := by
  intro l
  induction l with
  | nil => intro st h; exact h
  | cons x xs ih =>
    intro st h
    unfold scanItems
    by_cases hguard : (st.failed || st.gapInSeqNo) = true
    · rw [if_pos hguard]; exact h
    · rw [if_neg hguard]
      by_cases hold : (decide (st.cursor + 1 < x.seqNo) &&
          decide (SECONDS_BEFORE_ROLLBACK_GAP_TRIGGERED < now - x.creationDate)) = true
      · rw [if_pos hold]
        rcases hrb : rollback st.cursor x.seqNo dbId now st.store with ⟨store2, res⟩
        cases res with
        | error e => exact h
        | ok rolled =>
          apply ih
          intro t ht
          by_cases hx : decide (dbLast < x.seqNo) = true
          · simp only [hx, if_true, List.mem_append, List.mem_filter,
              List.mem_singleton] at ht
            rcases ht with (ht2 | ht2) | ht2
            · exact h t ht2
            · exact of_decide_eq_true ht2.2
            · subst ht2
              exact of_decide_eq_true hx
          · simp only [hx, if_false, List.mem_append, List.mem_filter,
              Bool.false_eq_true] at ht
            rcases ht with ht2 | ht2
            · exact h t ht2
            · exact of_decide_eq_true ht2.2
      · rw [if_neg hold]
        by_cases hgap : decide (st.cursor + 1 < x.seqNo) = true
        · rw [if_pos hgap]
          exact ih _ h
        · rw [if_neg hgap]
          apply ih
          intro t ht
          by_cases hx : decide (dbLast < x.seqNo) = true
          · simp only [hx, if_true, List.mem_append, List.mem_singleton] at ht
            rcases ht with ht2 | ht2
            · exact h t ht2
            · subst ht2
              exact of_decide_eq_true hx
          · simp only [hx, if_false, Bool.false_eq_true] at ht
            exact h t ht

/-- `scanItems_buffer_gt` lifted over pagination. -/
theorem scanPages_buffer_gt (dbId : String) (now dbLast : Int) :
    ∀ (pages : List (List Tx)) (st : ScanSt),
      (∀ t ∈ st.buffer, dbLast < t.seqNo) →
      ∀ t ∈ (scanPages dbId now dbLast pages st).buffer, dbLast < t.seqNo := by
  intro pages
  induction pages with
  | nil => intro st h; exact h
  | cons pg rest ih =>
    intro st h
    have h2 := scanItems_buffer_gt dbId now dbLast pg st h
    simp only [scanPages]
    by_cases hf : (scanItems dbId now dbLast pg st).failed = true
    · rw [if_pos hf]; exact h2
    · rw [if_neg hf]
      by_cases he : rest.isEmpty = true
      · rw [if_pos he]; exact h2
      · rw [if_neg he]
        by_cases hg : (scanItems dbId now dbLast pg st).gapInSeqNo = true
        · rw [if_pos hg]; exact h2
        · rw [if_neg hg]; exact ih _ h2

/-- When every buffered transaction is above the watermark, `sendPayload`
never moves `lastSeqNo` down: it either sends nothing (state unchanged) or
sets `lastSeqNo` to the seqNo of a buffered transaction. -/
theorem sendPayload_lastSeqNo_mono_aux :
    ∀ (payload : Payload) (log : List Tx) (db : DatabaseState),
      (∀ t ∈ log, db.lastSeqNo < t.seqNo) →
      db.lastSeqNo ≤ (sendPayload payload log db).2.lastSeqNo := by
  intro payload log db h
  cases hs : survivors log db with
  | nil => rw [sendPayload_eq_nil payload log db hs]
  | cons first rest =>
    rw [sendPayload_eq_cons payload log db first rest hs]
    have hmem : rest.getLastD first ∈ log := by
      have hm : rest.getLastD first ∈ first :: rest := List.getLastD_mem_cons rest first
      rw [← hs] at hm
      exact mem_of_mem_survivors log db _ hm
    have hgt : db.lastSeqNo < (rest.getLastD first).seqNo := h _ hmem
    simp only [sendPayloadCons]
    by_cases hg : seqNoGateFails payload.bundleSeqNo db.lastSeqNo first.seqNo = true
    · rw [if_pos hg]
    · rw [if_neg hg]
      by_cases ht : TRANSACTION_SIZE_BUNDLE_TRIGGER ≤
          db.transactionLogSize + ((first :: rest).map Tx.size).sum
      · rw [if_pos ht]
        exact le_of_lt hgt
      · rw [if_neg ht]
        exact le_of_lt hgt

/-- In every payload `push` builds, the empty-buffer `lastSeqNo` update
cannot decrease it: the bundle preface only runs from `lastSeqNo = 0` with
a positive `bundleSeqNo`. -/
theorem bundleAdvance_pushPayload (db : DatabaseState) (dbId : String)
    (dbNameHash dbKey : Option String) (reopenAtSeqNo : Option Int)
    (bundle : Option String) :
    db.lastSeqNo ≤
      bundleAdvance (pushPayload db dbId dbNameHash dbKey reopenAtSeqNo bundle)
        db.lastSeqNo := by
  simp only [pushPayload]
  by_cases hb : 0 < db.bundleSeqNo ∧ db.lastSeqNo = 0
  · rw [if_pos hb]
    cases bundle with
    | none => simp [bundleAdvance]
    | some s =>
      simp only [bundleAdvance]
      omega
  · rw [if_neg hb]
    by_cases ho : opening dbNameHash dbKey reopenAtSeqNo = true
    · rw [if_pos ho]
      simp [bundleAdvance]
    · rw [if_neg ho]
      simp [bundleAdvance]

/-- No `push` lowers `lastSeqNo`. -/
theorem push_lastSeqNo_mono_aux :
    ∀ (db : DatabaseState) (dbId : String) (dbNameHash dbKey : Option String)
      (reopenAtSeqNo : Option Int) (bundle : Option String)
      (pages : List (List Tx)) (now : Int) (store : List Tx),
      db.lastSeqNo ≤
        (push db dbId dbNameHash dbKey reopenAtSeqNo bundle pages now store).db.lastSeqNo := by
  intro db dbId dbNameHash dbKey reopenAtSeqNo bundle pages now store
  have hbuf : ∀ t ∈ (scanPages dbId now db.lastSeqNo pages
      (initialScanSt (pushCursor db) store)).buffer, db.lastSeqNo < t.seqNo := by
    apply scanPages_buffer_gt
    intro t ht
    simp [initialScanSt] at ht
  unfold push pushAfterScan
  by_cases hf : (scanPages dbId now db.lastSeqNo pages
      (initialScanSt (pushCursor db) store)).failed = true
  · rw [if_pos hf]
  · rw [if_neg hf]
    by_cases h1 : (opening dbNameHash dbKey reopenAtSeqNo && (db.lastSeqNo != 0)) = true
    · rw [if_pos h1]
    · rw [if_neg h1]
      by_cases h2 : reopenMismatch reopenAtSeqNo db.lastSeqNo = true
      · rw [if_pos h2]
      · rw [if_neg h2]
        by_cases h3 : (!opening dbNameHash dbKey reopenAtSeqNo && !db.init) = true
        · rw [if_pos h3]
        · rw [if_neg h3]
          by_cases h4 : (scanPages dbId now db.lastSeqNo pages
              (initialScanSt (pushCursor db) store)).buffer.isEmpty = true
          · rw [if_pos h4]
            by_cases h5 : (opening dbNameHash dbKey reopenAtSeqNo ||
                reopening reopenAtSeqNo) = true
            · rw [if_pos h5]
              exact bundleAdvance_pushPayload db dbId dbNameHash dbKey reopenAtSeqNo bundle
            · rw [if_neg h5]
          · rw [if_neg h4]
            exact sendPayload_lastSeqNo_mono_aux _ _ db hbuf

/-- Claim C9: `database.lastSeqNo` never decreases.  For `sendPayload`,
under the guarantee every call site establishes — each buffered
transaction lies above the watermark (the fast path checks
`seqNo = lastSeqNo + 1` before calling, and `push` buffers only items with
`seqNo > database.lastSeqNo`) — the resulting `lastSeqNo` is at least the
old one.  For `push`, monotonicity holds unconditionally. -/
theorem lastSeqNo_monotone :
    (∀ (payload : Payload) (log : List Tx) (db : DatabaseState),
      (∀ t ∈ log, db.lastSeqNo < t.seqNo) →
      db.lastSeqNo ≤ (sendPayload payload log db).2.lastSeqNo) ∧
    (∀ (db : DatabaseState) (dbId : String) (dbNameHash dbKey : Option String)
       (reopenAtSeqNo : Option Int) (bundle : Option String)
       (pages : List (List Tx)) (now : Int) (store : List Tx),
      db.lastSeqNo ≤
        (push db dbId dbNameHash dbKey reopenAtSeqNo bundle pages now store).db.lastSeqNo) :=
  ⟨sendPayload_lastSeqNo_mono_aux, push_lastSeqNo_mono_aux⟩

/-- Witness for C9: a concrete fast-path-shaped send advances `lastSeqNo`
from 4 to 5, and a concrete push does not lower it. -/
theorem lastSeqNo_monotone_witness :
    (∀ t ∈ [txA], dbAt4.lastSeqNo < t.seqNo) ∧
    dbAt4.lastSeqNo ≤ (sendPayload { dbId := "D" } [txA] dbAt4).2.lastSeqNo ∧
    (openDatabase (-1) none).lastSeqNo ≤
      (push (openDatabase (-1) none) "D" (some "h") (some "k") none none [] 0 []).db.lastSeqNo :=
  ⟨by decide, lastSeqNo_monotone.1 { dbId := "D" } [txA] dbAt4 (by decide),
   lastSeqNo_monotone.2 (openDatabase (-1) none) "D" (some "h") (some "k") none none [] 0 []⟩

/-- At most one registered connection carries a given `clientId` when the
projection to clientIds has no duplicates. -/
theorem filter_clientId_le_one (l : List Conn) (c : String)
    (h : (l.map Conn.clientId).Nodup) :
    (l.filter (fun k => k.clientId == c)).length ≤ 1 := by
  induction l with
  | nil => simp
  | cons x xs ih =>
    simp only [List.map_cons, List.nodup_cons] at h
    obtain ⟨hx, hxs⟩ := h
    rw [List.filter_cons]
    by_cases hc : (x.clientId == c) = true
    · rw [hc]
      have hnil : xs.filter (fun k => k.clientId == c) = [] := by
        apply List.filter_eq_nil_iff.mpr
        intro k hk hkc
        apply hx
        rw [List.mem_map]
        refine ⟨k, hk, ?_⟩
        rw [eq_of_beq hkc, eq_of_beq hc]
      rw [hnil]
      simp
    · rw [Bool.eq_false_iff.mpr hc]
      rw [if_neg (by simp)]
      exact ih hxs

/-- Under the invariant, membership in `uniqueClients` is the same as
having exactly one registered connection with that `clientId`. -/
theorem regInv_count (reg : Registry) (h : RegInv reg) (c : String) :
    c ∈ reg.uniqueClients ↔ countClient reg c = 1 := by
  obtain ⟨_, h2, h3, _, _⟩ := h
  unfold countClient
  constructor
  · intro hc
    obtain ⟨k, hk, hkc⟩ := (h2 c).mp hc
    have hmem : k ∈ reg.sockets.filter (fun k => k.clientId == c) :=
      List.mem_filter.mpr ⟨hk, by rw [hkc]; exact beq_self_eq_true c⟩
    have h1 : 1 ≤ (reg.sockets.filter (fun k => k.clientId == c)).length :=
      List.length_pos.mpr (List.ne_nil_of_mem hmem)
    have hle := filter_clientId_le_one reg.sockets c h3
    omega
  · intro hc
    have hne : reg.sockets.filter (fun k => k.clientId == c) ≠ [] := by
      intro hnil
      rw [hnil] at hc
      simp at hc
    obtain ⟨k, hk⟩ := List.exists_mem_of_ne_nil _ hne
    obtain ⟨hk1, hk2⟩ := List.mem_filter.mp hk
    exact (h2 c).mpr ⟨k, hk1, eq_of_beq hk2⟩

/-- `RegInv` holds of the empty registry. -/
theorem regInv_empty : RegInv emptyRegistry := by
  refine ⟨List.nodup_nil, ?_, List.nodup_nil, List.nodup_nil, ?_⟩
  · intro c
    simp [emptyRegistry]
  · intro k hk
    simp [emptyRegistry] at hk

/-- `register` preserves the registry invariant. -/
theorem regInv_register (reg : Registry) (u c : String) (h : RegInv reg) :
    RegInv (register reg u c).1 := by
  obtain ⟨h1, h2, h3, h4, h5⟩ := h
  unfold register
  by_cases hc : reg.uniqueClients.contains c = true
  · rw [if_pos hc]
    exact ⟨h1, h2, h3, h4, h5⟩
  · rw [if_neg hc]
    have hcm : c ∉ reg.uniqueClients := by
      intro hm
      exact hc (List.elem_eq_true_of_mem hm)
    dsimp only
    refine ⟨?_, ?_, ?_, ?_, ?_⟩
    · exact List.nodup_cons.mpr ⟨hcm, h1⟩
    · intro x
      constructor
      · intro hx
        rcases List.mem_cons.mp hx with hx1 | hx1
        · exact ⟨{ userId := u, clientId := c, id := reg.nextId }, List.mem_cons_self _ _,
            hx1.symm⟩
        · obtain ⟨k, hk, hkc⟩ := (h2 x).mp hx1
          exact ⟨k, List.mem_cons_of_mem _ hk, hkc⟩
      · intro hx
        obtain ⟨k, hk, hkc⟩ := hx
        rcases List.mem_cons.mp hk with hk1 | hk1
        · subst hk1
          rw [← hkc]
          exact List.mem_cons_self _ _
        · exact List.mem_cons_of_mem _ ((h2 x).mpr ⟨k, hk1, hkc⟩)
    · rw [List.map_cons]
      apply List.nodup_cons.mpr
      refine ⟨?_, h3⟩
      intro hmem
      rw [List.mem_map] at hmem
      obtain ⟨k, hk, hkc⟩ := hmem
      exact hcm ((h2 c).mpr ⟨k, hk, hkc⟩)
    · rw [List.map_cons]
      apply List.nodup_cons.mpr
      refine ⟨?_, h4⟩
      intro hmem
      rw [List.mem_map] at hmem
      obtain ⟨k, hk, hkc⟩ := hmem
      have hkc2 : k.id = reg.nextId := hkc
      have hlt := h5 k hk
      omega
    · intro k hk
      rcases List.mem_cons.mp hk with hk1 | hk1
      · subst hk1
        exact Nat.lt_succ_self reg.nextId
      · exact Nat.lt_succ_of_lt (h5 k hk1)

/-- `close` on a connection still present preserves the registry
invariant. -/
theorem regInv_close (reg : Registry) (conn : Conn) (h : RegInv reg)
    (hl : connLive reg conn = true) : RegInv (closeConn reg conn) := by
  obtain ⟨h1, h2, h3, h4, h5⟩ := h
  have hmem : conn ∈ reg.sockets := of_decide_eq_true hl
  have hkey : ∀ k ∈ reg.sockets,
      ((k.userId == conn.userId && k.id == conn.id) = true ↔ k = conn) := by
    intro k hk
    constructor
    · intro hkk
      have hid : k.id = conn.id := eq_of_beq (Bool.and_eq_true_iff.mp hkk).2
      exact List.inj_on_of_nodup_map h4 hk hmem hid
    · intro hkc
      subst hkc
      simp
  have hcid : ∀ k ∈ reg.sockets, k.clientId = conn.clientId → k = conn :=
    fun k hk hkc => List.inj_on_of_nodup_map h3 hk hmem hkc
  have hsub : List.Sublist (closeConn reg conn).sockets reg.sockets :=
    List.filter_sublist reg.sockets
  refine ⟨h1.filter _, ?_, h3.sublist (hsub.map Conn.clientId),
    h4.sublist (hsub.map Conn.id), fun k hk => h5 k (hsub.subset hk)⟩
  intro x
  unfold closeConn
  simp only [List.mem_filter]
  constructor
  · intro hx
    obtain ⟨hx1, hx2⟩ := hx
    have hxne : x ≠ conn.clientId := by
      intro hxeq
      rw [hxeq] at hx2
      simp at hx2
    obtain ⟨k, hk, hkc⟩ := (h2 x).mp hx1
    have hkne : k ≠ conn := by
      intro hke
      subst hke
      exact hxne hkc.symm
    refine ⟨k, ⟨hk, ?_⟩, hkc⟩
    by_cases hkk : (k.userId == conn.userId && k.id == conn.id) = true
    · exact absurd ((hkey k hk).mp hkk) hkne
    · rw [Bool.eq_false_iff.mpr hkk]
      rfl
  · intro hx
    obtain ⟨k, ⟨hk, hknot⟩, hkc⟩ := hx
    have hkne : k ≠ conn := by
      intro hke
      subst hke
      simp at hknot
    have hx1 : x ∈ reg.uniqueClients := (h2 x).mpr ⟨k, hk, hkc⟩
    refine ⟨hx1, ?_⟩
    have hxne : x ≠ conn.clientId := by
      intro hxeq
      apply hkne
      apply hcid k hk
      rw [hkc, hxeq]
    simp [hxne]

/-- Step equation of `runOps` for a `register` operation. -/
theorem runOps_register_step (u c : String) (rest : List RegOp) (s : RunSt) :
    runOps (RegOp.register u c :: rest) s =
      runOps rest ⟨(register s.reg u c).1,
        s.minted ++ (register s.reg u c).2.result.toList, s.closesLive⟩ := rfl

/-- Step equation of `runOps` for a `close` resolving to a minted
connection. -/
theorem runOps_close_some_step (k : Nat) (rest : List RegOp) (s : RunSt) (conn : Conn)
    (hm : s.minted.get? k = some conn) :
    runOps (RegOp.close k :: rest) s =
      runOps rest ⟨closeConn s.reg conn, s.minted,
        s.closesLive && connLive s.reg conn⟩ := by
  simp only [runOps, hm]

/-- Step equation of `runOps` for a `close` whose index was never
minted. -/
theorem runOps_close_none_step (k : Nat) (rest : List RegOp) (s : RunSt)
    (hm : s.minted.get? k = none) :
    runOps (RegOp.close k :: rest) s = runOps rest ⟨s.reg, s.minted, false⟩ := by
  simp only [runOps, hm]

/-- The `closesLive` flag of a run never turns back on. -/
theorem runOps_closesLive_mono : ∀ (ops : List RegOp) (s : RunSt),
    (runOps ops s).closesLive = true → s.closesLive = true := by
  intro ops
  induction ops with
  | nil => intro s h; exact h
  | cons op rest ih =>
    intro s h
    cases op with
    | register u c =>
      rw [runOps_register_step u c rest s] at h
      exact ih ⟨(register s.reg u c).1,
        s.minted ++ (register s.reg u c).2.result.toList, s.closesLive⟩ h
    | close k =>
      cases hm : s.minted.get? k with
      | some conn =>
        rw [runOps_close_some_step k rest s conn hm] at h
        have h2 := ih ⟨closeConn s.reg conn, s.minted,
          s.closesLive && connLive s.reg conn⟩ h
        exact (Bool.and_eq_true_iff.mp h2).1
      | none =>
        rw [runOps_close_none_step k rest s hm] at h
        have h2 := ih ⟨s.reg, s.minted, false⟩ h
        exact absurd h2 (by simp)

/-- Along any run whose closes all hit live connections, the registry
invariant is maintained. -/
theorem runOps_regInv : ∀ (ops : List RegOp) (s : RunSt),
    RegInv s.reg → (runOps ops s).closesLive = true → RegInv (runOps ops s).reg := by
  intro ops
  induction ops with
  | nil => intro s hinv _; exact hinv
  | cons op rest ih =>
    intro s hinv h
    cases op with
    | register u c =>
      rw [runOps_register_step u c rest s] at h ⊢
      exact ih _ (regInv_register _ u c hinv) h
    | close k =>
      cases hm : s.minted.get? k with
      | some conn =>
        rw [runOps_close_some_step k rest s conn hm] at h ⊢
        have hlive : connLive s.reg conn = true := by
          have h2 := runOps_closesLive_mono rest _ h
          exact (Bool.and_eq_true_iff.mp h2).2
        exact ih _ (regInv_close _ _ hinv hlive) h
      | none =>
        rw [runOps_close_none_step k rest s hm] at h
        have h2 := runOps_closesLive_mono rest _ h
        exact absurd h2 (by simp)

/-- Counterexample to claim C6 as stated over arbitrary sequences of
`register` and `close`.  The trace `cexOps` registers clientId `C`, closes
that connection, registers `C` again, then closes the *first* (stale)
connection once more: the second `close` deletes `uniqueClients[C]` even
though the re-registered connection is still in `sockets`.  Afterwards
exactly one connection with clientId `C` is registered, yet
`C ∉ uniqueClients` — the claimed equivalence fails. -/
theorem registry_uniqueness_cex :
    countClient (runOps cexOps initialRunSt).reg "C" = 1 ∧
    "C" ∉ (runOps cexOps initialRunSt).reg.uniqueClients := by
  decide

/-- Claim C6, amended: starting from the empty registry, after any
sequence of `register` and `close` operations *in which every close is
applied to a connection still present in the registry* (the `closesLive`
flag of the run), `clientId ∈ uniqueClients` iff exactly one connection
with that `clientId` is registered.  (The counterexample shows the
restriction is needed: a second close of an already-closed connection
breaks the equivalence.) -/
theorem registry_uniqueness :
    ∀ (ops : List RegOp) (clientId : String),
      (runOps ops initialRunSt).closesLive = true →
      ((clientId ∈ (runOps ops initialRunSt).reg.uniqueClients) ↔
        countClient (runOps ops initialRunSt).reg clientId = 1) := by
  intro ops clientId h
  exact regInv_count _ (runOps_regInv ops initialRunSt regInv_empty h) clientId

/-- Witness for the amended C6: a register followed by a live close keeps
the flag `true`, and for that run the equivalence holds. -/
theorem registry_uniqueness_witness :
    (runOps [RegOp.register "U" "C", RegOp.close 0] initialRunSt).closesLive = true ∧
    (("C" ∈ (runOps [RegOp.register "U" "C", RegOp.close 0] initialRunSt).reg.uniqueClients) ↔
      countClient (runOps [RegOp.register "U" "C", RegOp.close 0] initialRunSt).reg "C" = 1) :=
  ⟨by decide, registry_uniqueness [RegOp.register "U" "C", RegOp.close 0] "C" (by decide)⟩


/-- `slotTaken` distributes over store append. -/
theorem slotTaken_append (store l : List Tx) (dbId : String) (i : Int) :
    slotTaken (store ++ l) dbId i = (slotTaken store dbId i || slotTaken l dbId i) := by
  unfold slotTaken
  exact List.any_append

/-- The conditional-put loop of `rollback`, run over a window whose first
occupied slot is `i`: the sentinels for the free prefix are written and
remain in the store, then the put at `i` fails and the error propagates —
no sentinel list is returned. -/
theorem rollbackGo_partial (dbId : String) (now : Int) :
    ∀ (pre : List Int) (i : Int) (post : List Int) (store : List Tx),
      pre.Nodup → i ∉ pre →
      (∀ k ∈ pre, slotTaken store dbId k = false) →
      slotTaken store dbId i = true →
      rollbackGo dbId now (pre ++ i :: post) store =
        (store ++ pre.map (fun k => mkRollbackItem dbId k now), Except.error ()) := by
  intro pre
  induction pre with
  | nil =>
    intro i post store _ _ _ hi
    rw [List.nil_append]
    unfold rollbackGo
    rw [if_pos hi]
    simp
  | cons x xs ih =>
    intro i post store hnd hni hfree hi
    obtain ⟨hxmem, hnd2⟩ := List.nodup_cons.mp hnd
    have hnix : i ∉ xs := fun hk => hni (List.mem_cons_of_mem x hk)
    rw [List.cons_append]
    unfold rollbackGo
    have hx : slotTaken store dbId x = false := hfree x (List.mem_cons_self x xs)
    rw [if_neg (by rw [hx]; exact Bool.false_ne_true)]
    have hfree2 : ∀ k ∈ xs,
        slotTaken (store ++ [mkRollbackItem dbId x now]) dbId k = false := by
      intro k hk
      rw [slotTaken_append]
      have h1 : slotTaken store dbId k = false := hfree k (List.mem_cons_of_mem x hk)
      have hxk : x ≠ k := fun he => hxmem (by rw [he]; exact hk)
      have h2 : slotTaken [mkRollbackItem dbId x now] dbId k = false := by
        simp [slotTaken, mkRollbackItem]
        intro hxx
        exact absurd hxx hxk
      rw [h1, h2]
      rfl
    have hi2 : slotTaken (store ++ [mkRollbackItem dbId x now]) dbId i = true := by
      rw [slotTaken_append, hi]
      rfl
    have hrec := ih i post (store ++ [mkRollbackItem dbId x now]) hnd2 hnix hfree2 hi2
    show ((rollbackGo dbId now (xs ++ i :: post)
            (store ++ [mkRollbackItem dbId x now])).1,
          (rollbackGo dbId now (xs ++ i :: post)
            (store ++ [mkRollbackItem dbId x now])).2.map
            (fun l2 => mkRollbackItem dbId x now :: l2)) =
        (store ++ (x :: xs).map (fun k => mkRollbackItem dbId k now), Except.error ())
    rw [hrec]
    simp [List.append_assoc]
    rfl

/-- `rollback` visits the window in strictly increasing order. -/
theorem rollbackIdxs_sorted (l t : Int) : (rollbackIdxs l t).Pairwise (· < ·) := by
  unfold rollbackIdxs
  rw [List.pairwise_map]
  apply List.Pairwise.imp ?_ (List.pairwise_lt_range _)
  intro a b hab
  omega

/-- The window of `rollback` is exactly `[lastSeqNo + 1, thisSeqNo - 1]`. -/
theorem rollbackIdxs_mem (l t n : Int) :
    n ∈ rollbackIdxs l t ↔ l + 1 ≤ n ∧ n ≤ t - 1 := by
  unfold rollbackIdxs
  simp only [List.mem_map, List.mem_range]
  constructor
  · rintro ⟨k, hk, rfl⟩
    omega
  · rintro ⟨h1, h2⟩
    refine ⟨(n - (l + 1)).toNat, by omega, by omega⟩

/-- The conditional-put loop only ever appends to the store. -/
theorem rollbackGo_store_prefix (dbId : String) (now : Int) :
    ∀ (idxs : List Int) (store : List Tx),
      ∃ added, (rollbackGo dbId now idxs store).1 = store ++ added := by
  intro idxs
  induction idxs with
  | nil => intro store; exact ⟨[], by simp [rollbackGo]⟩
  | cons i rest ih =>
    intro store
    unfold rollbackGo
    by_cases hi : slotTaken store dbId i = true
    · rw [if_pos hi]
      exact ⟨[], by simp⟩
    · rw [if_neg hi]
      obtain ⟨added, ha⟩ := ih (store ++ [mkRollbackItem dbId i now])
      refine ⟨mkRollbackItem dbId i now :: added, ?_⟩
      show (rollbackGo dbId now rest (store ++ [mkRollbackItem dbId i now])).1 =
        store ++ mkRollbackItem dbId i now :: added
      rw [ha]
      simp

/-- The item scan only ever appends to the store. -/
theorem scanItems_store_prefix (dbId : String) (now dbLast : Int) :
    ∀ (l : List Tx) (st : ScanSt),
      ∃ added, (scanItems dbId now dbLast l st).store = st.store ++ added := by
  intro l
  induction l with
  | nil => intro st; exact ⟨[], by simp [scanItems]⟩
  | cons x xs ih =>
    intro st
    unfold scanItems
    by_cases hguard : (st.failed || st.gapInSeqNo) = true
    · rw [if_pos hguard]
      exact ⟨[], by simp⟩
    · rw [if_neg hguard]
      by_cases hold : (decide (st.cursor + 1 < x.seqNo) &&
          decide (SECONDS_BEFORE_ROLLBACK_GAP_TRIGGERED < now - x.creationDate)) = true
      · rw [if_pos hold]
        rcases hrb : rollback st.cursor x.seqNo dbId now st.store with ⟨store2, res⟩
        obtain ⟨a1, ha1⟩ := rollbackGo_store_prefix dbId now
          (rollbackIdxs st.cursor x.seqNo) st.store
        have hs2 : store2 = st.store ++ a1 := by
          have hh : (rollback st.cursor x.seqNo dbId now st.store).1 = st.store ++ a1 := ha1
          rw [hrb] at hh
          exact hh
        cases res with
        | error e => exact ⟨a1, hs2⟩
        | ok rolled =>
          obtain ⟨a2, ha2⟩ := ih
            { cursor := x.seqNo, gapInSeqNo := true
              buffer :=
                if decide (dbLast < x.seqNo) then
                  (st.buffer ++ rolled.filter (fun r => decide (dbLast < r.seqNo))) ++ [x]
                else st.buffer ++ rolled.filter (fun r => decide (dbLast < r.seqNo))
              store := store2, failed := false }
          exact ⟨a1 ++ a2, ha2.trans (by rw [hs2, List.append_assoc])⟩
      · rw [if_neg hold]
        by_cases hgap : decide (st.cursor + 1 < x.seqNo) = true
        · rw [if_pos hgap]
          obtain ⟨a2, ha2⟩ := ih { st with gapInSeqNo := true }
          exact ⟨a2, ha2⟩
        · rw [if_neg hgap]
          obtain ⟨a2, ha2⟩ := ih ⟨x.seqNo, st.gapInSeqNo,
            if decide (dbLast < x.seqNo) then st.buffer ++ [x] else st.buffer,
            st.store, st.failed⟩
          exact ⟨a2, ha2⟩

/-- Pagination only ever appends to the store. -/
theorem scanPages_store_prefix (dbId : String) (now dbLast : Int) :
    ∀ (pages : List (List Tx)) (st : ScanSt),
      ∃ added, (scanPages dbId now dbLast pages st).store = st.store ++ added := by
  intro pages
  induction pages with
  | nil => intro st; exact ⟨[], by simp [scanPages]⟩
  | cons pg rest ih =>
    intro st
    obtain ⟨a1, ha1⟩ := scanItems_store_prefix dbId now dbLast pg st
    simp only [scanPages]
    by_cases hf : (scanItems dbId now dbLast pg st).failed = true
    · rw [if_pos hf]
      exact ⟨a1, ha1⟩
    · rw [if_neg hf]
      by_cases he : rest.isEmpty = true
      · rw [if_pos he]
        exact ⟨a1, ha1⟩
      · rw [if_neg he]
        by_cases hg : (scanItems dbId now dbLast pg st).gapInSeqNo = true
        · rw [if_pos hg]
          exact ⟨a1, ha1⟩
        · rw [if_neg hg]
          obtain ⟨a2, ha2⟩ := ih (scanItems dbId now dbLast pg st)
          exact ⟨a1 ++ a2, ha2.trans (by rw [ha1, List.append_assoc])⟩

/-- A `push` aborted by a store error emits nothing and leaves the
`DatabaseState` untouched. -/
theorem push_errored_no_mutation :
    ∀ (db : DatabaseState) (dbId : String) (dbNameHash dbKey : Option String)
      (reopenAtSeqNo : Option Int) (bundle : Option String)
      (pages : List (List Tx)) (now : Int) (store : List Tx),
      (push db dbId dbNameHash dbKey reopenAtSeqNo bundle pages now store).errored = true →
      (push db dbId dbNameHash dbKey reopenAtSeqNo bundle pages now store).sent = none ∧
      (push db dbId dbNameHash dbKey reopenAtSeqNo bundle pages now store).db = db := by
  intro db dbId dbNameHash dbKey reopenAtSeqNo bundle pages now store h
  unfold push pushAfterScan at h ⊢
  split_ifs at h ⊢
  exact ⟨rfl, rfl⟩

/-- Every store write a `push` performs survives it, whether or not the
push later aborts. -/
theorem push_store_prefix2 :
    ∀ (db : DatabaseState) (dbId : String) (dbNameHash dbKey : Option String)
      (reopenAtSeqNo : Option Int) (bundle : Option String)
      (pages : List (List Tx)) (now : Int) (store : List Tx),
      ∃ added, (push db dbId dbNameHash dbKey reopenAtSeqNo bundle pages now store).store =
        store ++ added := by
  intro db dbId dbNameHash dbKey reopenAtSeqNo bundle pages now store
  obtain ⟨a, ha⟩ := scanPages_store_prefix dbId now db.lastSeqNo pages
    (initialScanSt (pushCursor db) store)
  unfold push pushAfterScan
  split_ifs
  all_goals exact ⟨a, ha⟩

/-- Claim C10: rollback is not atomic over its window.  `rollback` issues
conditional puts in strictly increasing order over exactly the integers in
`[lastSeqNo+1, thisSeqNo-1]`; at the first occupied slot it stops and
propagates the error, returning no sentinel list, while the sentinels
already written for the free prefix stay in the store; the enclosing
`push` then finishes with the error flag, emitting no batch and leaving
the `DatabaseState` unchanged — but its store still contains everything
that was written. -/
theorem rollback_partial_failure :
    (∀ (lastSeqNo thisSeqNo : Int) (dbId : String) (now : Int) (store : List Tx)
       (pre : List Int) (i : Int) (post : List Int),
      rollbackIdxs lastSeqNo thisSeqNo = pre ++ i :: post →
      pre.Nodup → i ∉ pre →
      (∀ k ∈ pre, slotTaken store dbId k = false) →
      slotTaken store dbId i = true →
      rollback lastSeqNo thisSeqNo dbId now store =
        (store ++ pre.map (fun k => mkRollbackItem dbId k now), Except.error ())) ∧
    (∀ (lastSeqNo thisSeqNo : Int),
      (rollbackIdxs lastSeqNo thisSeqNo).Pairwise (· < ·) ∧
      ∀ n : Int, n ∈ rollbackIdxs lastSeqNo thisSeqNo ↔
        lastSeqNo + 1 ≤ n ∧ n ≤ thisSeqNo - 1) ∧
    (∀ (db : DatabaseState) (dbId : String) (dbNameHash dbKey : Option String)
       (reopenAtSeqNo : Option Int) (bundle : Option String)
       (pages : List (List Tx)) (now : Int) (store : List Tx),
      ((push db dbId dbNameHash dbKey reopenAtSeqNo bundle pages now store).errored = true →
        (push db dbId dbNameHash dbKey reopenAtSeqNo bundle pages now store).sent = none ∧
        (push db dbId dbNameHash dbKey reopenAtSeqNo bundle pages now store).db = db) ∧
      ∃ added, (push db dbId dbNameHash dbKey reopenAtSeqNo bundle pages now store).store =
        store ++ added) := by
  refine ⟨?_, ?_, ?_⟩
  · intro lastSeqNo thisSeqNo dbId now store pre i post hidx hnd hni hfree hi
    unfold rollback
    rw [hidx]
    exact rollbackGo_partial dbId now pre i post store hnd hni hfree hi
  · intro lastSeqNo thisSeqNo
    exact ⟨rollbackIdxs_sorted lastSeqNo thisSeqNo,
      fun n => rollbackIdxs_mem lastSeqNo thisSeqNo n⟩
  · intro db dbId dbNameHash dbKey reopenAtSeqNo bundle pages now store
    exact ⟨push_errored_no_mutation db dbId dbNameHash dbKey reopenAtSeqNo bundle
        pages now store,
      push_store_prefix2 db dbId dbNameHash dbKey reopenAtSeqNo bundle pages now store⟩

/-- Witness for C10.  Rollback of window `[1, 2]` over a store whose slot
2 is occupied writes the sentinel at 1 and then errors; a push that runs
that rollback (gap item at 3, slot 1 occupied so the very first put
fails) ends errored with nothing sent and its state unchanged. -/
theorem rollback_partial_failure_witness :
    (rollback 0 3 "D" 5 [blocker2] =
      ([blocker2, mkRollbackItem "D" 1 5], Except.error ())) ∧
    ((push dbInit "D" none none none none [[gapT3]] 20000 [blocker1]).errored = true →
      (push dbInit "D" none none none none [[gapT3]] 20000 [blocker1]).sent = none ∧
      (push dbInit "D" none none none none [[gapT3]] 20000 [blocker1]).db = dbInit) ∧
    ∃ added, (push dbInit "D" none none none none [[gapT3]] 20000 [blocker1]).store =
      [blocker1] ++ added :=
  ⟨(rollback_partial_failure.1 0 3 "D" 5 [blocker2] [1] 2 [] (by decide) (by decide)
      (by decide) (by decide) (by decide)).trans (by decide),
   rollback_partial_failure.2.2 dbInit "D" none none none none [[gapT3]] 20000 [blocker1]⟩

end Userbase
